import Mathlib

/-!
Shallow embedding of the ICU-risk server model core:
`server_fastapi/model_adapter.py` (class `ModelAdapter`) and
`server_fastapi/model_impl.py` (class `CSDI_base`: noise schedule and
reverse-diffusion sampling loop).

Python floats are modelled as rationals on the adapter side (only ring
operations and order comparisons occur there, so the embedding stays
computable) and as real numbers on the diffusion side (square roots occur
there).  Fallible external calls — invoking a loaded torch model, the
scaler's `transform`, the generative imputer — are modelled as functions
into `Except String`, mirroring Python exceptions; each `try/except`
block of the source becomes a `match` on the `Except` value.
-/

namespace ICURisk

/-- A float cell that may be NaN; `none` models NaN. -/
abbrev Cell := Option ℚ

/-- A dense 2-d float array (list of rows), as produced by `np.nan_to_num`. -/
abbrev RArray := List (List ℚ)

/-- A 2-d array of possibly-NaN cells, as assembled from `_vector_from_row` rows. -/
abbrev CArray := List (List Cell)

/-- A loaded torch predictor (`self._torch_model`): the whole call chain
`torch.tensor → model → squeeze → numpy` is abstracted as a fallible map
from the prepared array to the flattened list of output scalars. -/
abbrev TorchModel := RArray → Except String (List ℚ)

/-- The optional generative imputation model (`self._gen_model`): a fallible
map from the NaN-filled input array to a generated array. -/
abbrev GenModel := RArray → Except String RArray

/-- An arbitrary unpickled predictor object (`self._model`): `hasPredict`
models `hasattr(obj, "predict")`; `predictFn` models `obj.predict`, whose
result is indexed at 0 by the caller. -/
structure PredictorObj where
  hasPredict : Bool
  predictFn : RArray → Except String (List ℚ)

/-- The optional fitted scaler (`self._scaler`): `hasTransform` models
`hasattr(scaler, "transform")`. -/
structure Scaler where
  hasTransform : Bool
  transform : RArray → Except String RArray

/-- A raw value held in one feature row: a Python float, a string (carrying
the result of `float(s)` — `none` when that call raises), the empty string,
or `None`. -/
inductive RawVal where
  | num (v : ℚ)
  | str (parsed : Option ℚ)
  | emptyStr
  | pynone

/-- The dataclass `ModelOutput` of `model_adapter.py`. -/
structure ModelOutput where
  risk : Option ℚ
  contributions : Option (List (String × ℚ))
  model_loaded : Bool
  message : String

/-- The mutable fields of class `ModelAdapter`, plus `torch`, the
module-level flag recording whether the optional torch runtime imported
successfully (`torch is not None`). -/
structure ModelAdapter where
  feature_order : List String
  model : Option PredictorObj
  torch_model : Option TorchModel
  scaler : Option Scaler
  gen_model : Option GenModel
  model_loaded : Bool
  message : String
  torch : Bool

/-- The per-value branch of `ModelAdapter._vector_from_row`:
`raw in ("", None)` yields NaN, otherwise `float(raw)` with a fallback to
NaN when the conversion raises. -/
def parseRaw : RawVal → Cell
  | .num v => some v
  | .str (some v) => some v
  | .str none => none
  | .emptyStr => none
  | .pynone => none

/-- `ModelAdapter._vector_from_row`: one cell per feature name, with
`row.get(name, 0.0)` defaulting a missing key to `0.0`. -/
def vector_from_row (feature_order : List String) (row : String → Option RawVal) : List Cell :=
  feature_order.map fun name =>
    match row name with
    | none => some 0
    | some raw => parseRaw raw

/-- The argument of `ModelAdapter.predict`: either a single feature dict or
a sequence of per-timestep dicts. -/
inductive Features where
  | single (row : String → Option RawVal)
  | seq (rows : List (String → Option RawVal))

/-- The `np.array` built at the top of `ModelAdapter._prepare_input`.
Every row comes from `_vector_from_row`, so the array is rectangular with
row length `feature_order.length`. -/
def rawCells (feature_order : List String) : Features → CArray
  | .single row => [vector_from_row feature_order row]
  | .seq rows => rows.map (vector_from_row feature_order)

/-- `np.nan_to_num(array, nan=0.0)`: every NaN cell becomes `0.0`. -/
def nanToNum (a : CArray) : RArray := a.map fun r => r.map fun c => c.getD 0

/-- The numpy shape of a (rectangular) 2-d array, for the
`gen_np.shape == array.shape` comparison. -/
def shape2 {α : Type} (a : List (List α)) : ℕ × List ℕ := (a.length, a.map List.length)

/-- `np.isnan(array).any()`. -/
def hasNaN (a : CArray) : Bool := a.any fun r => r.any fun c => c.isNone

/-- The generative branch of `_prepare_input`: returns the replacement
array actually used when the branch runs to completion — the gen model is
present, torch is present, some cell is NaN, the model call does not raise,
and the generated array has the same shape; in every other case (`except
Exception: pass` included) returns `none` and the array is left unchanged.
The tensor plumbing (`unsqueeze`/`squeeze`) is folded into the abstract
`GenModel`; a squeeze that changes the shape is subsumed by the
shape-mismatch case. -/
def genResult (gen : Option GenModel) (torchAvail : Bool) (a : CArray) : Option RArray :=
  match gen with
  | some g =>
    if torchAvail && hasNaN a then
      match g (nanToNum a) with
      | .ok gnp => if shape2 gnp = shape2 a then some gnp else none
      | .error _ => none
    else none
  | none => none

/-- `np.where(nan_mask, gen_np, array)`: a NaN cell takes the generated
value, a numeric cell keeps its own value. -/
def npWhere (a : CArray) (gnp : RArray) : CArray :=
  (a.zip gnp).map fun rr => (rr.1.zip rr.2).map fun cv => some (cv.1.getD cv.2)

/-- The whole generative-imputation stage of `_prepare_input`. -/
def genStage (gen : Option GenModel) (torchAvail : Bool) (a : CArray) : CArray :=
  match genResult gen torchAvail a with
  | some gnp => npWhere a gnp
  | none => a

/-- The scaler stage of `_prepare_input`: applied only when a scaler with a
`transform` attribute is present; a raising `transform` is swallowed and the
array is returned unscaled. -/
def scaleStage (sc : Option Scaler) (a : RArray) : RArray :=
  match sc with
  | some s =>
    if s.hasTransform then
      match s.transform a with
      | .ok b => b
      | .error _ => a
    else a
  | none => a

/-- `ModelAdapter._prepare_input`. -/
def prepare_input (s : ModelAdapter) (features : Features) : RArray :=
  scaleStage s.scaler (nanToNum (genStage s.gen_model s.torch (rawCells s.feature_order features)))

/-- The risk post-processing shared by both predict branches:
`risk_value * 100 if risk_value <= 1 else risk_value`.  Note this scales
but never clamps. -/
def riskOf (v : ℚ) : ℚ := if v ≤ 1 then v * 100 else v

/-- The body of the torch-model `try` block in `ModelAdapter.predict`:
run the model, squeeze, and extract the scalar.  Since `np.isscalar` is
`False` on every numpy array, the source always takes `float(value[-1])`,
which raises `IndexError` on an empty result; that raise is modelled as an
`Except.error` (it is caught by the same `except`). -/
def innerTorchCall (tm : TorchModel) (array : RArray) : Except String ℚ := do
  let out ← tm array
  match out.getLast? with
  | some v => pure v
  | none => .error "IndexError"

/-- The body of the sklearn-style `try` block in `ModelAdapter.predict`:
`self._model.predict(array)[0]`, with an empty result raising `IndexError`. -/
def innerSkCall (m : PredictorObj) (array : RArray) : Except String ℚ := do
  let pr ← m.predictFn array
  match pr.head? with
  | some v => pure v
  | none => .error "IndexError"

/-- The second and third return paths of `ModelAdapter.predict`, reached
when the torch-model branch is not taken. -/
def predictFallback (s : ModelAdapter) (array : RArray) : ModelOutput × ModelAdapter :=
  match s.model with
  | some m =>
    if s.model_loaded && m.hasPredict then
      match innerSkCall m array with
      | .ok p =>
        ({ risk := some (riskOf p), contributions := none,
           model_loaded := true, message := s.message }, s)
      | .error e =>
        ({ risk := none, contributions := none,
           model_loaded := true, message := "predict_failed:" ++ e }, s)
    else
      ({ risk := none, contributions := none,
         model_loaded := false, message := s.message }, s)
  | none =>
    ({ risk := none, contributions := none,
       model_loaded := false, message := s.message }, s)

/-- `ModelAdapter.predict`.  The state is threaded explicitly: the method
assigns to no field of `self`, so every branch returns the state unchanged. -/
def predict (s : ModelAdapter) (features : Features) : ModelOutput × ModelAdapter :=
  let array := prepare_input s features
  match s.torch_model with
  | some tm =>
    if s.torch then
      match innerTorchCall tm array with
      | .ok v =>
        ({ risk := some (riskOf v), contributions := none,
           model_loaded := true, message := s.message }, s)
      | .error e =>
        ({ risk := none, contributions := none,
           model_loaded := true, message := "predict_failed:" ++ e }, s)
    else predictFallback s array
  | none => predictFallback s array

/-- `ModelAdapter.explain`: the stub that always returns absent risk and
absent contributions. -/
def explain (s : ModelAdapter) (_features : String → Option RawVal) :
    ModelOutput × ModelAdapter :=
  ({ risk := none, contributions := none,
     model_loaded := s.model_loaded, message := s.message }, s)

/-- The `status` property: `return self._message`. -/
def status (s : ModelAdapter) : String × ModelAdapter := (s.message, s)

/-- The scalar the fallback predictor branch would extract, when it runs. -/
def fallbackScalar (s : ModelAdapter) (array : RArray) : Option ℚ :=
  match s.model with
  | some m =>
    if s.model_loaded && m.hasPredict then (innerSkCall m array).toOption else none
  | none => none

/-- The scalar extracted from the loaded model's output on this input —
the `risk_value` / `prediction` local of `ModelAdapter.predict` — when the
corresponding branch runs and does not raise. -/
def modelScalar (s : ModelAdapter) (features : Features) : Option ℚ :=
  let array := prepare_input s features
  match s.torch_model with
  | some tm =>
    if s.torch then (innerTorchCall tm array).toOption else fallbackScalar s array
  | none => fallbackScalar s array

/-- The result of `torch.load` in the classifier fallback chain:
either an `nn.Module` or an arbitrary serialized object. -/
inductive RawLoaded where
  | module (m : TorchModel)
  | obj (o : PredictorObj)

/-- The result of `torch.load` in the generative-model fallback chain. -/
inductive RawLoadedGen where
  | module (g : GenModel)
  | obj

/-- The construction-time environment of `ModelAdapter.__init__`:
availability of the optional runtimes, existence of each artifact path
(`path` truthiness folded in), and the outcome of each load attempt.  Each
`load`-and-`eval` pair of the source is modelled as one atomic fallible
operation. -/
structure Env where
  torchAvailable : Bool
  joblibAvailable : Bool
  modelPath : String
  scalerExists : Bool
  modelExists : Bool
  genExists : Bool
  scalerJoblibLoad : Except String Scaler
  scalerPickleLoad : Except String Scaler
  jitLoad : Except String TorchModel
  rawLoad : Except String RawLoaded
  genJitLoad : Except String GenModel
  genRawLoad : Except String RawLoadedGen

/-- The scaler block of `ModelAdapter.__init__`: joblib when available,
else pickle; a raising load leaves the scaler `None` and records the
failure in the status message. -/
def initScaler (env : Env) (s : ModelAdapter) : ModelAdapter :=
  if env.scalerExists then
    match (if env.joblibAvailable then env.scalerJoblibLoad else env.scalerPickleLoad) with
    | .ok sc => { s with scaler := some sc }
    | .error e => { s with scaler := none, message := "scaler_load_failed:" ++ e }
  else s

/-- The classifier block of `ModelAdapter.__init__`: the three-tier
fallback chain `torch.jit.load` → `torch.load` (module or arbitrary
object), entered only when the artifact exists, degrading to the message
`torch_missing` when torch is absent. -/
def initModel (env : Env) (s : ModelAdapter) : ModelAdapter :=
  if env.modelExists then
    if !env.torchAvailable then { s with message := "torch_missing" }
    else
      match env.jitLoad with
      | .ok tm =>
        { s with torch_model := some tm, model_loaded := true,
                 message := "loaded_jit:" ++ env.modelPath }
      | .error _ =>
        match env.rawLoad with
        | .ok (.module tm) =>
          { s with torch_model := some tm, model_loaded := true,
                   message := "loaded_nn:" ++ env.modelPath }
        | .ok (.obj o) =>
          { s with model := some o, model_loaded := true,
                   message := "loaded_obj:" ++ env.modelPath }
        | .error e =>
          { s with model_loaded := false, message := "load_failed:" ++ e }
  else s

/-- The generative-model block of `ModelAdapter.__init__`: jit load, then a
raw load kept only when it is a module; a non-module raw load changes
nothing and a raising raw load leaves the generative model `None`. -/
def initGen (env : Env) (s : ModelAdapter) : ModelAdapter :=
  if env.genExists && env.torchAvailable then
    match env.genJitLoad with
    | .ok g => { s with gen_model := some g }
    | .error _ =>
      match env.genRawLoad with
      | .ok (.module g) => { s with gen_model := some g }
      | .ok .obj => s
      | .error _ => { s with gen_model := none }
  else s

/-- `ModelAdapter.__init__`: field defaults, then the scaler block, then the
classifier three-tier fallback chain, then the generative-model chain. -/
def initAdapter (env : Env) (feature_order : List String) : ModelAdapter :=
  initGen env (initModel env (initScaler env
    { feature_order := feature_order, model := none, torch_model := none,
      scaler := none, gen_model := none, model_loaded := false,
      message := "stub", torch := env.torchAvailable }))

/-! ## Diffusion core (`model_impl.py`, class `CSDI_base`)

The per-batch-element `[F, T]` tensors of `impute` are modelled as `Mat`:
an explicit shape together with a total real-valued entry function (the
loop acts elementwise and identically on every batch element, so the batch
dimension is dropped).  Elementwise torch operations follow torch's
broadcasting rule: two sizes are compatible when they are equal or one of
them is `1`; incompatible sizes raise a `RuntimeError`, modelled as
`Except.error`.  The learned denoiser network `diff_CSDI` is abstracted as
a `Denoiser` producing one predicted-noise entry per cell; its output is
reshaped by the source (`x.view(batch, features, length)`) to the shape of
its two-channel input, which `torch.cat` requires to have equal channel
shapes.  The per-run side information tensor (`get_side_info`) is constant
across steps and is folded into the abstract denoiser closure.  Gaussian
draws (`torch.randn_like`) are supplied as explicit noise-entry streams. -/

/-- One per-batch-element float tensor of shape `[F, T]`. -/
structure Mat where
  F : ℕ
  T : ℕ
  entry : ℕ → ℕ → ℝ

/-- The diffusion hyperparameters consumed by `CSDI_base.__init__`
(`config["diffusion"]`). -/
structure DiffParams where
  beta_start : ℝ
  beta_end : ℝ
  num_steps : ℕ

/-- The repository's `CONFIG["diffusion"]` values: `beta_start = 0.0001`,
`beta_end = 0.5`, `num_steps = 10`. -/
noncomputable def configDiffusion : DiffParams := { beta_start := 1 / 10000, beta_end := 1 / 2, num_steps := 10 }

/-- The noise schedule of `CSDI_base.__init__`:
`np.linspace(beta_start ** 0.5, beta_end ** 0.5, num_steps) ** 2`.
`np.linspace(a, b, S)` yields `a + i * (b - a) / (S - 1)`; for `S = 1` the
division by zero below yields `0`, matching numpy's single point `[a]`. -/
noncomputable def beta (p : DiffParams) (i : ℕ) : ℝ :=
  (Real.sqrt p.beta_start +
      (i : ℝ) * (Real.sqrt p.beta_end - Real.sqrt p.beta_start) / ((p.num_steps : ℝ) - 1)) ^ 2

/-- `self.alpha_hat = 1 - beta`, the per-step retention coefficient. -/
noncomputable def alpha_hat (p : DiffParams) (i : ℕ) : ℝ := 1 - beta p i

/-- `self.alpha = torch.cumprod(self.alpha_hat, dim=0)`, the cumulative
retention: `alpha t = ∏_{i ≤ t} alpha_hat i`. -/
noncomputable def alpha (p : DiffParams) (t : ℕ) : ℝ :=
  ∏ i ∈ Finset.range (t + 1), alpha_hat p i

/-- Torch's broadcast of one dimension pair: sizes must match or be 1. -/
def bdim (a b : ℕ) : Option ℕ :=
  if a == b then some a else if a == 1 then some b else if b == 1 then some a else none

/-- The source index along a possibly-broadcast dimension of size `d`. -/
def bIndex (d i : ℕ) : ℕ := if d == 1 then 0 else i

/-- A binary elementwise torch operation with broadcasting; incompatible
shapes raise. -/
noncomputable def ebin (f : ℝ → ℝ → ℝ) (x y : Mat) : Except String Mat :=
  match bdim x.F y.F, bdim x.T y.T with
  | some F, some T =>
      .ok ⟨F, T, fun i j =>
        f (x.entry (bIndex x.F i) (bIndex x.T j)) (y.entry (bIndex y.F i) (bIndex y.T j))⟩
  | _, _ => .error "RuntimeError: the size of tensor a must match the size of tensor b"

/-- Elementwise tensor product `x * y`. -/
noncomputable def tmul : Mat → Mat → Except String Mat := ebin (· * ·)

/-- Elementwise tensor sum `x + y`. -/
noncomputable def tadd : Mat → Mat → Except String Mat := ebin (· + ·)

/-- Elementwise tensor difference `x - y`. -/
noncomputable def tsub : Mat → Mat → Except String Mat := ebin (· - ·)

/-- Scalar-minus-tensor `1 - cond_mask` (shape preserved). -/
noncomputable def oneMinus (x : Mat) : Mat := ⟨x.F, x.T, fun i j => 1 - x.entry i j⟩

/-- Scalar-times-tensor (shape preserved). -/
noncomputable def smulM (c : ℝ) (x : Mat) : Mat := ⟨x.F, x.T, fun i j => c * x.entry i j⟩

/-- The abstract denoiser `self.diffmodel`: from the two-channel input
`(cond_mask * observed_data, (1 - cond_mask) * x)` and the step index `t`,
one predicted-noise entry per cell (the fixed per-run side information is
folded into the closure). -/
abbrev Denoiser := Mat × Mat → ℕ → ℕ → ℕ → ℝ

/-- One iteration of the reverse-sampling loop body of `CSDI_base.impute`
at step `t`: build the two-channel input, predict the noise, apply the
closed-form DDPM update `x ← c1 * (x - c2 * pred)` with
`c1 = 1 / alpha_hat[t] ** 0.5` and
`c2 = (1 - alpha_hat[t]) / (1 - alpha[t]) ** 0.5`, and, when `t > 0`, add
fresh noise scaled by the posterior standard deviation `sig`.
Two shape constraints of the source are checked before the denoiser runs:
`torch.cat(..., dim=1)` requires the two channels to have equal shapes, and
inside `diff_CSDI` every `ResidualBlock.forward` executes
`cond_info.view(batch, -1, features * length)` followed by the
`Conv1d(side_dim, …)` projection — `side_info = get_side_info(cond_mask)`
has per-batch shape `(side_dim, cond_mask.F, cond_mask.T)`, so this view
and channel count succeed exactly when
`cond_mask.F * cond_mask.T = features * length` of the working signal, and
raise a `RuntimeError` otherwise. -/
noncomputable def diffStep (p : DiffParams) (dm : Denoiser) (observed_data cond_mask : Mat)
    (sn : ℕ → ℕ → ℕ → ℝ) (t : ℕ) (x : Mat) : Except String Mat := do
  let kn ← tmul cond_mask observed_data
  let un ← tmul (oneMinus cond_mask) x
  if kn.F == un.F && kn.T == un.T then
    if cond_mask.F * cond_mask.T == kn.F * kn.T then
      let pred : Mat := ⟨kn.F, kn.T, dm (kn, un) t⟩
      let c1 := 1 / Real.sqrt (alpha_hat p t)
      let c2 := (1 - alpha_hat p t) / Real.sqrt (1 - alpha p t)
      let xc ← tsub x (smulM c2 pred)
      let x2 := smulM c1 xc
      if 0 < t then
        let sig := Real.sqrt (((1 - alpha p (t - 1)) / (1 - alpha p t)) * (1 - alpha_hat p t))
        tadd x2 (smulM sig ⟨x2.F, x2.T, sn t⟩)
      else pure x2
    else .error "RuntimeError: side_info view/Conv1d channel mismatch"
  else .error "RuntimeError: torch.cat shape mismatch"

/-- The descending loop `for t in range(self.num_steps - 1, -1, -1)`:
`runSteps k` performs the steps `t = k - 1, k - 2, …, 0`. -/
noncomputable def runSteps (p : DiffParams) (dm : Denoiser) (observed_data cond_mask : Mat)
    (sn : ℕ → ℕ → ℕ → ℝ) : ℕ → Mat → Except String Mat
  | 0, x => pure x
  | k + 1, x =>
    diffStep p dm observed_data cond_mask sn k x >>=
      runSteps p dm observed_data cond_mask sn k

/-- One sample of `CSDI_base.impute`: start from
`x = torch.randn_like(observed_data)` and run all `num_steps` reverse steps. -/
noncomputable def imputeOne (p : DiffParams) (dm : Denoiser) (observed_data cond_mask : Mat)
    (initN : ℕ → ℕ → ℝ) (sn : ℕ → ℕ → ℕ → ℝ) : Except String Mat :=
  runSteps p dm observed_data cond_mask sn p.num_steps ⟨observed_data.F, observed_data.T, initN⟩

/-- `CSDI_base.impute`: `n_samples` independent reverse-sampling runs,
collected in order (`torch.stack(imputed_samples, dim=1)` is modelled as the
list of per-sample matrices).  `initN n` supplies the initial Gaussian draw
of run `n`; `stepN n t` supplies the fresh noise injected at step `t`. -/
noncomputable def impute (p : DiffParams) (dm : Denoiser) (observed_data cond_mask : Mat)
    (n_samples : ℕ) (initN : ℕ → ℕ → ℕ → ℝ) (stepN : ℕ → ℕ → ℕ → ℕ → ℝ) :
    Except String (List Mat) :=
  (List.range n_samples).mapM fun n =>
    imputeOne p dm observed_data cond_mask (initN n) (stepN n)

/-- The cell-wise reduction `samples.mean(dim=1)` applied by
`CSDI_base.forward` to the stacked imputation samples. -/
noncomputable def meanSamples (F T : ℕ) (samples : List Mat) : Mat :=
  ⟨F, T, fun i j => ((samples.map fun m => m.entry i j).sum) / (samples.length : ℝ)⟩

/-! ## Auxiliary accessors and concrete instances used in the theorems -/

/-- Whether an `Except` computation completed without raising. -/
def okB {α : Type} : Except String α → Bool
  | .ok _ => true
  | .error _ => false

/-- Cell lookup in a 2-d cell array (`none` when out of range). -/
def cellAt (a : CArray) (i j : ℕ) : Option Cell := a[i]?.bind fun r => r[j]?

/-- Cell lookup in a dense 2-d array (`none` when out of range). -/
def rAt (a : RArray) (i j : ℕ) : Option ℚ := a[i]?.bind fun r => r[j]?

/-- A trivial denoiser used to instantiate universally quantified theorems. -/
def zeroDenoiser : Denoiser := fun _ _ _ _ => 0

/-- A 1×1 observed-data/mask matrix. -/
def unitMat : Mat := ⟨1, 1, fun _ _ => 0⟩

/-- A 2×3 observed-data matrix. -/
def obs23 : Mat := ⟨2, 3, fun _ _ => 0⟩

/-- A 2×1 observed-data matrix: a single time step. -/
def obs21 : Mat := ⟨2, 1, fun _ _ => 0⟩

/-- A 2×3 conditioning mask: same feature count as `obs21` but three time
steps; every elementwise torch operation silently broadcasts the
observation's size-1 time dimension up to this mask's, and the denoiser's
side-information constraint `mask.F * mask.T = F * T` holds for the
broadcast working shape, so a run completes with no error. -/
def mask23 : Mat := ⟨2, 3, fun _ _ => 1⟩

/-- A 5×3 conditioning mask: not broadcastable against `obs23` (5 ≠ 2 and
neither is 1). -/
def mask53 : Mat := ⟨5, 3, fun _ _ => 1⟩

/-- A one-step schedule, small enough for the kernel to run the loop. -/
noncomputable def pTiny : DiffParams := { beta_start := 1 / 2, beta_end := 1 / 2, num_steps := 1 }

/-- A torch classifier artifact whose (logit) output is `-1`: loading any
serialized module can produce such a model, and the repository's own
`LSTMModel` emits raw two-class logits with no softmax, so negative scalars
are realizable. -/
def negModel : TorchModel := fun _ => .ok [-1]

/-- A torch classifier artifact whose output is the probability `1/2`. -/
def halfModel : TorchModel := fun _ => .ok [1 / 2]

/-- A generative imputation model whose invocation raises. -/
def boomGen : GenModel := fun _ => .error "gen_boom"

/-- A scaler whose `transform` raises. -/
def boomScaler : Scaler := ⟨true, fun _ => .error "scale_boom"⟩

/-- An environment whose classifier artifact jit-loads to `negModel`. -/
def envNeg : Env :=
  { torchAvailable := true, joblibAvailable := false, modelPath := "m.pth",
    scalerExists := false, modelExists := true, genExists := false,
    scalerJoblibLoad := .error "no scaler", scalerPickleLoad := .error "no scaler",
    jitLoad := .ok negModel, rawLoad := .error "no raw",
    genJitLoad := .error "no gen", genRawLoad := .error "no gen" }

/-- An environment whose classifier jit-loads to `halfModel` and whose
generative model loads to the raising `boomGen`. -/
def envPrep : Env :=
  { envNeg with jitLoad := .ok halfModel, genExists := true, genJitLoad := .ok boomGen }

/-- An environment in which the optional torch runtime failed to import. -/
def envNoTorch : Env := { envNeg with torchAvailable := false }

/-- A torch classifier artifact that raises whenever it is invoked. -/
def raiseModel : TorchModel := fun _ => .error "RuntimeError: bad input"

/-- An environment whose classifier jit-loads to a model that raises when
invoked. -/
def envRaise : Env := { envNeg with jitLoad := .ok raiseModel }

/-- The adapter built on `envNeg`. -/
def adapterNeg : ModelAdapter := initAdapter envNeg ["age", "hr"]

/-- The adapter built on `envPrep`. -/
def adapterPrep : ModelAdapter := initAdapter envPrep ["age", "hr"]

/-- An adapter with a failing generative model and a failing scaler,
exercising every silent fallback of `_prepare_input`. -/
def adapterPrep2 : ModelAdapter :=
  { feature_order := ["age", "hr"], model := none, torch_model := none,
    scaler := some boomScaler, gen_model := some boomGen,
    model_loaded := false, message := "stub", torch := true }

/-- A single-row input whose `age` is numeric and whose `hr` is `None`
(hence NaN after `_vector_from_row`). -/
def featHalfMissing : Features := .single fun n => if n = "age" then some (.num 5) else some .pynone

/-- A single-row fully numeric input. -/
def featNum : Features := .single fun _ => some (.num 1)

/-! ## Noise-schedule lemmas -/

lemma beta_bounds (p : DiffParams) (i : ℕ)
    (hbs0 : 0 < p.beta_start) (hbs1 : p.beta_start < 1)
    (hbe0 : 0 < p.beta_end) (hbe1 : p.beta_end < 1) (hi : i < p.num_steps) :
    0 < beta p i ∧ beta p i < 1 := by
  have ha0 : 0 < Real.sqrt p.beta_start := Real.sqrt_pos.2 hbs0
  have hb0 : 0 < Real.sqrt p.beta_end := Real.sqrt_pos.2 hbe0
  have ha1 : Real.sqrt p.beta_start < 1 := by
    rw [Real.sqrt_lt' one_pos]; simpa using hbs1
  have hb1 : Real.sqrt p.beta_end < 1 := by
    rw [Real.sqrt_lt' one_pos]; simpa using hbe1
  set a := Real.sqrt p.beta_start with hadef
  set b := Real.sqrt p.beta_end with hbdef
  set w : ℝ := (i : ℝ) * (b - a) / ((p.num_steps : ℝ) - 1) with hwdef
  have hv : 0 < a + w ∧ a + w < 1 := by
    rcases Nat.lt_or_ge 1 p.num_steps with hS2 | hS1
    · have hd : (0 : ℝ) < (p.num_steps : ℝ) - 1 := by
        have : (1 : ℝ) < (p.num_steps : ℝ) := by exact_mod_cast hS2
        linarith
      have hi' : (i : ℝ) ≤ (p.num_steps : ℝ) - 1 := by
        have : (i : ℝ) + 1 ≤ (p.num_steps : ℝ) := by exact_mod_cast hi
        linarith
      rcases le_total a b with hab | hba
      · have hw0 : 0 ≤ w := by
          rw [hwdef]
          exact div_nonneg (mul_nonneg (Nat.cast_nonneg i) (sub_nonneg.2 hab)) hd.le
        have hwle : w ≤ b - a := by
          rw [hwdef, div_le_iff₀ hd]
          nlinarith [mul_le_mul_of_nonneg_right hi' (sub_nonneg.2 hab)]
        constructor <;> linarith
      · have hw0 : w ≤ 0 := by
          rw [hwdef]
          exact div_nonpos_of_nonpos_of_nonneg
            (mul_nonpos_of_nonneg_of_nonpos (Nat.cast_nonneg i) (sub_nonpos.2 hba)) hd.le
        have hwge : b - a ≤ w := by
          rw [hwdef, le_div_iff₀ hd]
          nlinarith [mul_le_mul_of_nonpos_right hi' (sub_nonpos.2 hba)]
        constructor <;> linarith
    · have hi0 : i = 0 := by omega
      have hS1' : p.num_steps = 1 := by omega
      have hw : w = 0 := by
        rw [hwdef, hi0, hS1']
        norm_num
      rw [hw]
      constructor <;> linarith
  have hbeta : beta p i = (a + w) ^ 2 := by
    rw [beta, hwdef, hadef, hbdef]
  rw [hbeta]
  exact ⟨pow_pos hv.1 2, pow_lt_one₀ hv.1.le hv.2 two_ne_zero⟩

lemma alpha_hat_bounds (p : DiffParams) (i : ℕ)
    (hbs0 : 0 < p.beta_start) (hbs1 : p.beta_start < 1)
    (hbe0 : 0 < p.beta_end) (hbe1 : p.beta_end < 1) (hi : i < p.num_steps) :
    0 < alpha_hat p i ∧ alpha_hat p i < 1 := by
  obtain ⟨h1, h2⟩ := beta_bounds p i hbs0 hbs1 hbe0 hbe1 hi
  rw [alpha_hat]
  constructor <;> linarith

lemma alpha_pos (p : DiffParams) (t : ℕ)
    (hbs0 : 0 < p.beta_start) (hbs1 : p.beta_start < 1)
    (hbe0 : 0 < p.beta_end) (hbe1 : p.beta_end < 1) (ht : t < p.num_steps) :
    0 < alpha p t := by
  rw [alpha]
  refine Finset.prod_pos fun i hi => ?_
  exact (alpha_hat_bounds p i hbs0 hbs1 hbe0 hbe1
    (lt_of_lt_of_le (Finset.mem_range.1 hi) ht)).1

lemma alpha_lt_one (p : DiffParams)
    (hbs0 : 0 < p.beta_start) (hbs1 : p.beta_start < 1)
    (hbe0 : 0 < p.beta_end) (hbe1 : p.beta_end < 1) :
    ∀ t, t < p.num_steps → alpha p t < 1 := by
  intro t
  induction t with
  | zero =>
    intro ht
    have := (alpha_hat_bounds p 0 hbs0 hbs1 hbe0 hbe1 ht).2
    simpa [alpha, Finset.prod_range_one] using this
  | succ n ih =>
    intro ht
    have hn : n < p.num_steps := by omega
    have h1 := ih hn
    have h2 := alpha_pos p n hbs0 hbs1 hbe0 hbe1 hn
    have h3 := alpha_hat_bounds p (n + 1) hbs0 hbs1 hbe0 hbe1 ht
    have : alpha p (n + 1) = alpha p n * alpha_hat p (n + 1) := by
      rw [alpha, alpha, Finset.prod_range_succ]
    rw [this]
    nlinarith [h3.1, h3.2]

/-- C5: for every step count `S ≥ 1` and bounds `0 < β_start < β_end < 1`,
the schedule built by `CSDI_base.__init__` — linear interpolation between
`√β_start` and `√β_end` followed by squaring — yields per-step `β` values
whose cumulative retention `alpha t = ∏_{i ≤ t} (1 - beta i)` is strictly
decreasing in `t`, with `alpha 0 = 1 - beta 0` and `alpha (S-1)` strictly
positive. -/
theorem schedule_alpha_spec (p : DiffParams)
    (hS : 1 ≤ p.num_steps) (hbs0 : 0 < p.beta_start)
    (hlt : p.beta_start < p.beta_end) (hbe1 : p.beta_end < 1) :
    (∀ t, t + 1 < p.num_steps → alpha p (t + 1) < alpha p t) ∧
    alpha p 0 = 1 - beta p 0 ∧
    0 < alpha p (p.num_steps - 1) := by
  have hbs1 : p.beta_start < 1 := lt_trans hlt hbe1
  have hbe0 : 0 < p.beta_end := lt_trans hbs0 hlt
  refine ⟨fun t ht => ?_, ?_, ?_⟩
  · have h1 := alpha_pos p t hbs0 hbs1 hbe0 hbe1 (by omega)
    have h2 := alpha_hat_bounds p (t + 1) hbs0 hbs1 hbe0 hbe1 ht
    have heq : alpha p (t + 1) = alpha p t * alpha_hat p (t + 1) := by
      rw [alpha, alpha, Finset.prod_range_succ]
    rw [heq]
    nlinarith [h2.1, h2.2]
  · simp [alpha, alpha_hat, Finset.prod_range_one]
  · exact alpha_pos p (p.num_steps - 1) hbs0 hbs1 hbe0 hbe1 (by omega)

/-- C5 witness: the repository's own configuration
(`beta_start = 0.0001`, `beta_end = 0.5`, `num_steps = 10`) satisfies the
hypotheses, giving `alpha 0 = 1 - beta 0` and `alpha 9 > 0`. -/
theorem schedule_alpha_spec_witness :
    alpha configDiffusion 0 = 1 - beta configDiffusion 0 ∧
    0 < alpha configDiffusion (configDiffusion.num_steps - 1) := by
  have h := schedule_alpha_spec configDiffusion (by norm_num [configDiffusion])
    (by norm_num [configDiffusion]) (by norm_num [configDiffusion])
    (by norm_num [configDiffusion])
  exact ⟨h.2.1, h.2.2⟩

/-! ## Reverse-sampling lemmas -/

lemma bIndex_lt {d i : ℕ} (h : i < d) : bIndex d i = i := by
  unfold bIndex
  rcases eq_or_ne d 1 with h1 | h1
  · subst h1
    simp only [beq_self_eq_true, if_true]
    omega
  · simp [h1]

lemma bdim_self (a : ℕ) : bdim a a = some a := by simp [bdim]

lemma okBind {α β : Type} (a : α) (f : α → Except String β) :
    (Except.ok a >>= f) = f a := rfl

lemma errBind {α β : Type} (e : String) (f : α → Except String β) :
    ((Except.error e : Except String α) >>= f) = .error e := rfl

lemma ebin_ok (f : ℝ → ℝ → ℝ) (x y : Mat) (hF : x.F = y.F) (hT : x.T = y.T) :
    ∃ z, ebin f x y = .ok z ∧ z.F = x.F ∧ z.T = x.T ∧
      ∀ i j, i < x.F → j < x.T → z.entry i j = f (x.entry i j) (y.entry i j) := by
  have h1 : bdim x.F y.F = some x.F := by rw [← hF, bdim_self]
  have h2 : bdim x.T y.T = some x.T := by rw [← hT, bdim_self]
  refine ⟨⟨x.F, x.T, fun i j =>
      f (x.entry (bIndex x.F i) (bIndex x.T j)) (y.entry (bIndex y.F i) (bIndex y.T j))⟩,
    ?_, rfl, rfl, ?_⟩
  · rw [ebin, h1, h2]
  · intro i j hi hj
    show f (x.entry (bIndex x.F i) (bIndex x.T j)) (y.entry (bIndex y.F i) (bIndex y.T j)) =
      f (x.entry i j) (y.entry i j)
    rw [bIndex_lt hi, bIndex_lt hj, bIndex_lt (hF ▸ hi), bIndex_lt (hT ▸ hj)]

lemma tmul_ok (x y : Mat) (hF : x.F = y.F) (hT : x.T = y.T) :
    ∃ z, tmul x y = .ok z ∧ z.F = x.F ∧ z.T = x.T ∧
      ∀ i j, i < x.F → j < x.T → z.entry i j = x.entry i j * y.entry i j := by
  rw [tmul]; exact ebin_ok (· * ·) x y hF hT

lemma tsub_ok (x y : Mat) (hF : x.F = y.F) (hT : x.T = y.T) :
    ∃ z, tsub x y = .ok z ∧ z.F = x.F ∧ z.T = x.T ∧
      ∀ i j, i < x.F → j < x.T → z.entry i j = x.entry i j - y.entry i j := by
  rw [tsub]; exact ebin_ok (· - ·) x y hF hT

lemma tadd_ok (x y : Mat) (hF : x.F = y.F) (hT : x.T = y.T) :
    ∃ z, tadd x y = .ok z ∧ z.F = x.F ∧ z.T = x.T ∧
      ∀ i j, i < x.F → j < x.T → z.entry i j = x.entry i j + y.entry i j := by
  rw [tadd]; exact ebin_ok (· + ·) x y hF hT

lemma diffStep_spec (p : DiffParams) (dm : Denoiser) (od mask : Mat)
    (sn : ℕ → ℕ → ℕ → ℝ) (t : ℕ) (x : Mat)
    (hmF : mask.F = od.F) (hmT : mask.T = od.T) (hxF : x.F = od.F) (hxT : x.T = od.T) :
    ∃ kn un x', diffStep p dm od mask sn t x = .ok x' ∧
      kn.F = od.F ∧ kn.T = od.T ∧ un.F = od.F ∧ un.T = od.T ∧
      (∀ i j, i < od.F → j < od.T → kn.entry i j = mask.entry i j * od.entry i j) ∧
      (∀ i j, i < od.F → j < od.T → un.entry i j = (1 - mask.entry i j) * x.entry i j) ∧
      x'.F = od.F ∧ x'.T = od.T ∧
      ∀ i j, i < od.F → j < od.T →
        x'.entry i j =
          (1 / Real.sqrt (alpha_hat p t)) *
              (x.entry i j -
                ((1 - alpha_hat p t) / Real.sqrt (1 - alpha p t)) * dm (kn, un) t i j) +
            (if 0 < t then
              Real.sqrt (((1 - alpha p (t - 1)) / (1 - alpha p t)) * (1 - alpha_hat p t)) *
                sn t i j
             else 0) := by
  obtain ⟨kn, hkn, hknF, hknT, hknE⟩ := tmul_ok mask od hmF hmT
  have homF : (oneMinus mask).F = x.F := hmF.trans hxF.symm
  have homT : (oneMinus mask).T = x.T := hmT.trans hxT.symm
  obtain ⟨un, hun, hunF, hunT, hunE⟩ := tmul_ok (oneMinus mask) x homF homT
  have hknF' : kn.F = od.F := hknF.trans hmF
  have hknT' : kn.T = od.T := hknT.trans hmT
  have hunF' : un.F = od.F := hunF.trans (show mask.F = od.F from hmF)
  have hunT' : un.T = od.T := hunT.trans (show mask.T = od.T from hmT)
  have hguard : (kn.F == un.F && kn.T == un.T) = true := by
    simp [hknF', hknT', hunF', hunT']
  have hguard2 : (mask.F * mask.T == kn.F * kn.T) = true := by
    simp [hknF', hknT', hmF, hmT]
  have hknEod : ∀ i j, i < od.F → j < od.T → kn.entry i j = mask.entry i j * od.entry i j := by
    intro i j hi hj
    exact hknE i j (hmF.symm ▸ hi) (hmT.symm ▸ hj)
  have hunEod : ∀ i j, i < od.F → j < od.T →
      un.entry i j = (1 - mask.entry i j) * x.entry i j := by
    intro i j hi hj
    have hi' : i < (oneMinus mask).F := by
      show i < mask.F
      omega
    have hj' : j < (oneMinus mask).T := by
      show j < mask.T
      omega
    exact hunE i j hi' hj'
  have hpF : x.F =
      (smulM ((1 - alpha_hat p t) / Real.sqrt (1 - alpha p t)) ⟨kn.F, kn.T, dm (kn, un) t⟩).F := by
    show x.F = kn.F
    rw [hknF', hxF]
  have hpT : x.T =
      (smulM ((1 - alpha_hat p t) / Real.sqrt (1 - alpha p t)) ⟨kn.F, kn.T, dm (kn, un) t⟩).T := by
    show x.T = kn.T
    rw [hknT', hxT]
  obtain ⟨xc, hxc, hxcF, hxcT, hxcE⟩ :=
    tsub_ok x (smulM ((1 - alpha_hat p t) / Real.sqrt (1 - alpha p t))
      ⟨kn.F, kn.T, dm (kn, un) t⟩) hpF hpT
  have hopen : diffStep p dm od mask sn t x =
      (if 0 < t then
        tadd (smulM (1 / Real.sqrt (alpha_hat p t)) xc)
          (smulM
            (Real.sqrt (((1 - alpha p (t - 1)) / (1 - alpha p t)) * (1 - alpha_hat p t)))
            ⟨(smulM (1 / Real.sqrt (alpha_hat p t)) xc).F,
             (smulM (1 / Real.sqrt (alpha_hat p t)) xc).T, sn t⟩)
       else pure (smulM (1 / Real.sqrt (alpha_hat p t)) xc)) := by
    simp only [diffStep, hkn, hun, okBind]
    rw [if_pos hguard, if_pos hguard2]
    simp only [hxc, okBind]
  rcases Nat.eq_zero_or_pos t with ht0 | htpos
  · subst ht0
    rw [if_neg (by omega)] at hopen
    refine ⟨kn, un, smulM (1 / Real.sqrt (alpha_hat p 0)) xc, hopen, hknF', hknT',
      hunF', hunT', hknEod, hunEod, ?_, ?_, ?_⟩
    · show xc.F = od.F
      rw [hxcF, hxF]
    · show xc.T = od.T
      rw [hxcT, hxT]
    · intro i j hi hj
      have hx1 := hxcE i j (hxF.symm ▸ hi) (hxT.symm ▸ hj)
      show (1 / Real.sqrt (alpha_hat p 0)) * xc.entry i j = _
      rw [if_neg (by omega), hx1]
      show (1 / Real.sqrt (alpha_hat p 0)) *
          (x.entry i j -
            ((1 - alpha_hat p 0) / Real.sqrt (1 - alpha p 0)) * dm (kn, un) 0 i j) = _
      ring
  · rw [if_pos htpos] at hopen
    obtain ⟨xf, hxf, hxfF, hxfT, hxfE⟩ :=
      tadd_ok (smulM (1 / Real.sqrt (alpha_hat p t)) xc)
        (smulM (Real.sqrt (((1 - alpha p (t - 1)) / (1 - alpha p t)) * (1 - alpha_hat p t)))
          ⟨(smulM (1 / Real.sqrt (alpha_hat p t)) xc).F,
           (smulM (1 / Real.sqrt (alpha_hat p t)) xc).T, sn t⟩) rfl rfl
    rw [hxf] at hopen
    refine ⟨kn, un, xf, hopen, hknF', hknT', hunF', hunT', hknEod, hunEod, ?_, ?_, ?_⟩
    · rw [hxfF]
      show xc.F = od.F
      rw [hxcF, hxF]
    · rw [hxfT]
      show xc.T = od.T
      rw [hxcT, hxT]
    · intro i j hi hj
      have hiF : i < (smulM (1 / Real.sqrt (alpha_hat p t)) xc).F := by
        show i < xc.F
        rw [hxcF, hxF]
        exact hi
      have hjT : j < (smulM (1 / Real.sqrt (alpha_hat p t)) xc).T := by
        show j < xc.T
        rw [hxcT, hxT]
        exact hj
      have h1 := hxfE i j hiF hjT
      have hx1 := hxcE i j (hxF.symm ▸ hi) (hxT.symm ▸ hj)
      rw [h1, if_pos htpos]
      show (1 / Real.sqrt (alpha_hat p t)) * xc.entry i j +
          Real.sqrt (((1 - alpha p (t - 1)) / (1 - alpha p t)) * (1 - alpha_hat p t)) *
            sn t i j = _
      rw [hx1]
      show (1 / Real.sqrt (alpha_hat p t)) *
          (x.entry i j -
            ((1 - alpha_hat p t) / Real.sqrt (1 - alpha p t)) * dm (kn, un) t i j) +
          Real.sqrt (((1 - alpha p (t - 1)) / (1 - alpha p t)) * (1 - alpha_hat p t)) *
            sn t i j = _
      rfl

lemma runSteps_shape (p : DiffParams) (dm : Denoiser) (od mask : Mat)
    (sn : ℕ → ℕ → ℕ → ℝ) (hmF : mask.F = od.F) (hmT : mask.T = od.T) :
    ∀ k x, x.F = od.F → x.T = od.T →
      ∃ y, runSteps p dm od mask sn k x = .ok y ∧ y.F = od.F ∧ y.T = od.T := by
  intro k
  induction k with
  | zero => intro x hF hT; exact ⟨x, rfl, hF, hT⟩
  | succ n ih =>
    intro x hF hT
    obtain ⟨kn, un, x', hstep, _, _, _, _, _, _, hxF, hxT, _⟩ :=
      diffStep_spec p dm od mask sn n x hmF hmT hF hT
    obtain ⟨y, hy, hyF, hyT⟩ := ih x' hxF hxT
    refine ⟨y, ?_, hyF, hyT⟩
    show diffStep p dm od mask sn n x >>= runSteps p dm od mask sn n = .ok y
    rw [hstep, okBind]
    exact hy

lemma mapM_ok_exists {α β : Type} (f : α → Except String β) (P : β → Prop) :
    ∀ l : List α, (∀ a ∈ l, ∃ b, f a = .ok b ∧ P b) →
      ∃ bs, l.mapM f = .ok bs ∧ bs.length = l.length ∧ ∀ b ∈ bs, P b := by
  intro l
  induction l with
  | nil => intro _; exact ⟨[], rfl, rfl, by simp⟩
  | cons a l ih =>
    intro h
    obtain ⟨b, hb, hPb⟩ := h a (by simp)
    obtain ⟨bs, hbs, hlen, hP⟩ := ih fun c hc => h c (by simp [hc])
    refine ⟨b :: bs, ?_, by simp [hlen], ?_⟩
    · simp only [List.mapM_cons, hb, okBind, hbs]
      rfl
    · intro c hc
      rcases List.mem_cons.1 hc with rfl | hc
      · exact hPb
      · exact hP c hc

lemma bdim_none {a b : ℕ} (hne : a ≠ b) (ha : a ≠ 1) (hb : b ≠ 1) : bdim a b = none := by
  simp [bdim, hne, ha, hb]

lemma tmul_error (x y : Mat)
    (h : (x.F ≠ y.F ∧ x.F ≠ 1 ∧ y.F ≠ 1) ∨ (x.T ≠ y.T ∧ x.T ≠ 1 ∧ y.T ≠ 1)) :
    ∃ e, tmul x y = .error e := by
  rw [tmul, ebin]
  rcases h with ⟨h1, h2, h3⟩ | ⟨h1, h2, h3⟩
  · rw [bdim_none h1 h2 h3]
    rcases bdim x.T y.T with _ | T
    · exact ⟨_, rfl⟩
    · exact ⟨_, rfl⟩
  · rw [bdim_none h1 h2 h3]
    rcases bdim x.F y.F with _ | F
    · exact ⟨_, rfl⟩
    · exact ⟨_, rfl⟩

/-- C4: each reverse-sampling draw in `CSDI_base.impute` iterates `t` from
`S-1` down to `0` (the loop unfolding in the second conjunct performs step
`k` and then recurses on the steps below it); each step feeds the denoiser
the two-channel input `(cond_mask · observed_data, (1 - cond_mask) · x)`,
updates the candidate by `x ← (1/√α̂(t)) · (x - ((1-α̂(t))/√(1-α(t))) · pred)`
and adds fresh noise scaled by the posterior standard deviation only when
`t > 0`; under schedule bounds in `(0,1)` the denominators `α̂(t)` and
`1 - α(t)` are nonzero at every step, so no division by zero occurs. -/
theorem reverse_step_spec (p : DiffParams) (dm : Denoiser) (od mask : Mat)
    (sn : ℕ → ℕ → ℕ → ℝ) (x : Mat) (t : ℕ)
    (hbs0 : 0 < p.beta_start) (hbs1 : p.beta_start < 1)
    (hbe0 : 0 < p.beta_end) (hbe1 : p.beta_end < 1)
    (ht : t < p.num_steps)
    (hmF : mask.F = od.F) (hmT : mask.T = od.T) (hxF : x.F = od.F) (hxT : x.T = od.T) :
    (alpha_hat p t ≠ 0 ∧ 1 - alpha p t ≠ 0) ∧
    (∀ k y, runSteps p dm od mask sn (k + 1) y =
        diffStep p dm od mask sn k y >>= runSteps p dm od mask sn k) ∧
    (∃ kn un x', diffStep p dm od mask sn t x = .ok x' ∧
      kn.F = od.F ∧ kn.T = od.T ∧ un.F = od.F ∧ un.T = od.T ∧
      (∀ i j, i < od.F → j < od.T → kn.entry i j = mask.entry i j * od.entry i j) ∧
      (∀ i j, i < od.F → j < od.T → un.entry i j = (1 - mask.entry i j) * x.entry i j) ∧
      x'.F = od.F ∧ x'.T = od.T ∧
      ∀ i j, i < od.F → j < od.T →
        x'.entry i j =
          (1 / Real.sqrt (alpha_hat p t)) *
              (x.entry i j -
                ((1 - alpha_hat p t) / Real.sqrt (1 - alpha p t)) * dm (kn, un) t i j) +
            (if 0 < t then
              Real.sqrt (((1 - alpha p (t - 1)) / (1 - alpha p t)) * (1 - alpha_hat p t)) *
                sn t i j
             else 0)) := by
  refine ⟨⟨?_, ?_⟩, fun k y => rfl,
    diffStep_spec p dm od mask sn t x hmF hmT hxF hxT⟩
  · exact ne_of_gt (alpha_hat_bounds p t hbs0 hbs1 hbe0 hbe1 ht).1
  · have h := alpha_lt_one p hbs0 hbs1 hbe0 hbe1 t ht
    exact sub_ne_zero.2 (ne_of_lt h).symm

/-- C4 witness: at the repository configuration and step `t = 3`, with
concrete unit matrices, both denominators are nonzero. -/
theorem reverse_step_spec_witness :
    alpha_hat configDiffusion 3 ≠ 0 ∧ 1 - alpha configDiffusion 3 ≠ 0 :=
  (reverse_step_spec configDiffusion zeroDenoiser unitMat unitMat (fun _ _ _ => 0) unitMat 3
    (by norm_num [configDiffusion]) (by norm_num [configDiffusion])
    (by norm_num [configDiffusion]) (by norm_num [configDiffusion])
    (by norm_num [configDiffusion]) rfl rfl rfl rfl).1

/-- C3: for every observed-data matrix of shape `[F,T]`, conditioning mask
of the same shape and sample count `N ≥ 1`, one complete sampling run
(`CSDI_base.impute` followed by the cell-wise reduction of
`CSDI_base.forward`) yields `N` final candidates, each of the input's
`[F,T]` shape, and an `ImputedMatrix` of that same shape whose every cell
equals the mean over the `N` candidates of that cell (cells are total real
values, so no missing markers occur). -/
theorem impute_mean_spec (p : DiffParams) (dm : Denoiser) (od mask : Mat)
    (n : ℕ) (initN : ℕ → ℕ → ℕ → ℝ) (stepN : ℕ → ℕ → ℕ → ℕ → ℝ)
    (hmF : mask.F = od.F) (hmT : mask.T = od.T) (_hn : 1 ≤ n) :
    ∃ samples, impute p dm od mask n initN stepN = .ok samples ∧
      samples.length = n ∧
      (∀ m ∈ samples, m.F = od.F ∧ m.T = od.T) ∧
      (meanSamples od.F od.T samples).F = od.F ∧
      (meanSamples od.F od.T samples).T = od.T ∧
      ∀ i j, (meanSamples od.F od.T samples).entry i j =
        ((samples.map fun m => m.entry i j).sum) / (n : ℝ) := by
  obtain ⟨samples, hs, hlen, hP⟩ :=
    mapM_ok_exists (fun k => imputeOne p dm od mask (initN k) (stepN k))
      (fun m => m.F = od.F ∧ m.T = od.T) (List.range n)
      (fun a _ => by
        obtain ⟨y, hy, hyF, hyT⟩ :=
          runSteps_shape p dm od mask (stepN a) hmF hmT p.num_steps
            ⟨od.F, od.T, initN a⟩ rfl rfl
        exact ⟨y, hy, hyF, hyT⟩)
  rw [List.length_range] at hlen
  refine ⟨samples, hs, hlen, hP, rfl, rfl, fun i j => ?_⟩
  show ((samples.map fun m => m.entry i j).sum) / (samples.length : ℝ) = _
  rw [hlen]

/-- C3 witness: a concrete one-sample run on matching 1×1 matrices
completes with exactly one candidate. -/
theorem impute_mean_spec_witness :
    ∃ samples,
      impute configDiffusion zeroDenoiser unitMat unitMat 1
        (fun _ _ _ => 0) (fun _ _ _ _ => 0) = .ok samples ∧
      samples.length = 1 := by
  obtain ⟨samples, hs, hlen, -⟩ :=
    impute_mean_spec configDiffusion zeroDenoiser unitMat unitMat 1
      (fun _ _ _ => 0) (fun _ _ _ _ => 0) rfl rfl (by norm_num)
  exact ⟨samples, hs, hlen⟩

/-- C6 amended: a conditioning mask whose shape is not torch-broadcastable
against the observation matrix (a dimension differs and neither size is 1)
makes the first elementwise masking of the sampling loop raise a
`RuntimeError`-style shape error, so `impute` (any `N ≥ 1`, `S ≥ 1`) fails
fast; but a shape disagreement in which the mask's shape dominates a
broadcastable observation (the observation carries the size-1 dimension,
see the counterexample theorem) is instead silently broadcast rather than
rejected. -/
theorem impute_shape_mismatch_error (p : DiffParams) (dm : Denoiser) (od mask : Mat)
    (n : ℕ) (initN : ℕ → ℕ → ℕ → ℝ) (stepN : ℕ → ℕ → ℕ → ℕ → ℝ)
    (hn : 1 ≤ n) (hS : 1 ≤ p.num_steps)
    (hbad : (mask.F ≠ od.F ∧ mask.F ≠ 1 ∧ od.F ≠ 1) ∨
            (mask.T ≠ od.T ∧ mask.T ≠ 1 ∧ od.T ≠ 1)) :
    ∃ e, impute p dm od mask n initN stepN = .error e := by
  obtain ⟨e, he⟩ := tmul_error mask od hbad
  obtain ⟨S', hS'⟩ := Nat.exists_eq_succ_of_ne_zero (by omega : p.num_steps ≠ 0)
  obtain ⟨n', hn'⟩ := Nat.exists_eq_succ_of_ne_zero (by omega : n ≠ 0)
  have hone : imputeOne p dm od mask (initN 0) (stepN 0) = .error e := by
    rw [imputeOne, hS']
    show diffStep p dm od mask (stepN 0) S' _ >>=
      runSteps p dm od mask (stepN 0) S' = _
    rw [diffStep, he, errBind, errBind]
  refine ⟨e, ?_⟩
  rw [impute, hn', List.range_succ_eq_map]
  simp only [List.mapM_cons, hone, errBind]

/-- C6 amended witness: a 5×3 mask against a 2×3 observation matrix
(5 ≠ 2, neither 1) makes the sampling run fail fast with an error. -/
theorem impute_shape_mismatch_error_witness :
    ∃ e, impute configDiffusion zeroDenoiser obs23 mask53 1
      (fun _ _ _ => 0) (fun _ _ _ _ => 0) = .error e :=
  impute_shape_mismatch_error configDiffusion zeroDenoiser obs23 mask53 1
    (fun _ _ _ => 0) (fun _ _ _ _ => 0) (by norm_num)
    (by norm_num [configDiffusion]) (Or.inl (by decide))

/-- C6 counterexample: a 2×3 conditioning mask disagrees with the 2×1
observation matrix's shape, yet a complete sampling run succeeds.  Tracing
the source: `cond_mask * observed_data` and `(1 - cond_mask) * x` broadcast
the observation's size-1 time dimension up to the mask's three, `torch.cat`
sees two equal `(2,3)` channels, and inside the denoiser
`cond_info.view(batch, -1, features * length)` succeeds because the
side-information cell count `2·3` equals the working signal's `2·3` — so
the observation is silently broadcast instead of failing fast, and the
claim that every shape disagreement produces an error is false. -/
theorem impute_broadcast_silent_cex :
    mask23.T ≠ obs21.T ∧
    okB (impute pTiny zeroDenoiser obs21 mask23 1
      (fun _ _ _ => 0) (fun _ _ _ _ => 0)) = true := by
  constructor
  · decide
  · rfl

/-! ## Adapter lemmas and theorems -/

lemma predictFallback_state_eq (s : ModelAdapter) (array : RArray) :
    (predictFallback s array).2 = s := by
  cases hm : s.model with
  | none => simp [predictFallback, hm]
  | some m =>
    cases hc : (s.model_loaded && m.hasPredict) with
    | false => simp [predictFallback, hm, hc]
    | true =>
      cases hcall : innerSkCall m array with
      | ok p => simp [predictFallback, hm, hc, hcall]
      | error e => simp [predictFallback, hm, hc, hcall]

lemma predict_state_eq (s : ModelAdapter) (x : Features) : (predict s x).2 = s := by
  cases htm : s.torch_model with
  | none =>
    simp only [predict, htm]
    exact predictFallback_state_eq s _
  | some tm =>
    cases hto : s.torch with
    | false =>
      simp only [predict, htm, hto, Bool.false_eq_true, if_false]
      exact predictFallback_state_eq s _
    | true =>
      cases hcall : innerTorchCall tm (prepare_input s x) with
      | ok v => simp [predict, htm, hto, hcall]
      | error e => simp [predict, htm, hto, hcall]

lemma predictFallback_risk_eq (s : ModelAdapter) (array : RArray) (r : ℚ)
    (h : ((predictFallback s array).1).risk = some r) :
    ∃ v, fallbackScalar s array = some v ∧ r = riskOf v := by
  cases hm : s.model with
  | none => simp [predictFallback, hm] at h
  | some m =>
    cases hc : (s.model_loaded && m.hasPredict) with
    | false => simp [predictFallback, hm, hc] at h
    | true =>
      cases hcall : innerSkCall m array with
      | ok p =>
        refine ⟨p, ?_, ?_⟩
        · simp [fallbackScalar, hm, hc, hcall, Except.toOption]
        · simp [predictFallback, hm, hc, hcall] at h
          exact h.symm
      | error e => simp [predictFallback, hm, hc, hcall] at h

lemma predict_risk_eq (s : ModelAdapter) (x : Features) (r : ℚ)
    (h : ((predict s x).1).risk = some r) :
    ∃ v, modelScalar s x = some v ∧ r = riskOf v := by
  cases htm : s.torch_model with
  | none =>
    simp only [predict, htm] at h
    obtain ⟨v, hv, hr⟩ := predictFallback_risk_eq s (prepare_input s x) r h
    exact ⟨v, by simp only [modelScalar, htm]; exact hv, hr⟩
  | some tm =>
    cases hto : s.torch with
    | false =>
      simp only [predict, htm, hto, Bool.false_eq_true, if_false] at h
      obtain ⟨v, hv, hr⟩ := predictFallback_risk_eq s (prepare_input s x) r h
      refine ⟨v, ?_, hr⟩
      simp only [modelScalar, htm, hto, Bool.false_eq_true, if_false]
      exact hv
    | true =>
      cases hcall : innerTorchCall tm (prepare_input s x) with
      | ok v =>
        refine ⟨v, ?_, ?_⟩
        · simp [modelScalar, htm, hto, hcall, Except.toOption]
        · simp [predict, htm, hto, hcall] at h
          exact h.symm
      | error e => simp [predict, htm, hto, hcall] at h

/-- C1 corrected/amended: a present risk lies in `[0,100]` whenever the
scalar extracted from the loaded model's output lies in `[0,100]` (in
particular whenever it is a probability in `[0,1]`): the code computes
`riskOf v = v * 100` when `v ≤ 1` and `v` otherwise, and never clamps, so
outputs outside `[0,100]` (the counterexample uses `-1`) escape the range. -/
theorem predict_risk_in_range (s : ModelAdapter) (x : Features) (v r : ℚ)
    (hv : modelScalar s x = some v) (h0 : 0 ≤ v) (h1 : v ≤ 100)
    (hr : ((predict s x).1).risk = some r) :
    0 ≤ r ∧ r ≤ 100 := by
  obtain ⟨w, hw, hrw⟩ := predict_risk_eq s x r hr
  rw [hv] at hw
  injection hw with hvw
  subst hvw
  subst hrw
  rw [riskOf]
  rcases le_or_lt v 1 with hle | hlt
  · rw [if_pos hle]
    constructor <;> nlinarith
  · rw [if_neg (not_le.2 hlt)]
    exact ⟨h0, h1⟩

/-- C1 witness: a model emitting the probability `1/2` yields the in-range
risk `riskOf (1/2) = 50`. -/
theorem predict_risk_in_range_witness :
    (0 ≤ riskOf (1 / 2) ∧ riskOf (1 / 2) ≤ 100) ∧ riskOf (1 / 2) = 50 :=
  ⟨predict_risk_in_range adapterPrep featNum (1 / 2) (riskOf (1 / 2)) rfl
      (by norm_num) (by norm_num) rfl,
    by norm_num [riskOf]⟩

/-- C1 counterexample: with a loaded classifier whose scalar output is the
logit `-1` (the repository's `LSTMModel` emits raw logits and `predict`
never clamps), the returned risk is present and equals `-100 ∉ [0,100]`,
refuting the claim as stated. -/
theorem predict_risk_out_of_range_cex :
    ((predict adapterNeg featNum).1).risk = some (-100) ∧
    ¬(0 ≤ (-100 : ℚ) ∧ (-100 : ℚ) ≤ 100) := by
  constructor
  · have h1 : ((predict adapterNeg featNum).1).risk = some (riskOf (-1)) := rfl
    have h2 : riskOf (-1) = -100 := by norm_num [riskOf]
    rw [h1, h2]
  · norm_num

lemma initScaler_core_fields (env : Env) (s : ModelAdapter) :
    (initScaler env s).torch_model = s.torch_model ∧
    (initScaler env s).model = s.model ∧
    (initScaler env s).model_loaded = s.model_loaded := by
  unfold initScaler
  cases hse : env.scalerExists with
  | false => simp
  | true =>
    simp only [if_true]
    rcases (if env.joblibAvailable then env.scalerJoblibLoad else env.scalerPickleLoad)
      with e | sc <;> exact ⟨rfl, rfl, rfl⟩

lemma initGen_core_fields (env : Env) (s : ModelAdapter) :
    (initGen env s).torch_model = s.torch_model ∧
    (initGen env s).model = s.model ∧
    (initGen env s).model_loaded = s.model_loaded := by
  unfold initGen
  cases hge : (env.genExists && env.torchAvailable) with
  | false => simp
  | true =>
    simp only [if_true]
    rcases env.genJitLoad with e | g
    · rcases env.genRawLoad with e2 | g2
      · exact ⟨rfl, rfl, rfl⟩
      · rcases g2 with g3 | _ <;> exact ⟨rfl, rfl, rfl⟩
    · exact ⟨rfl, rfl, rfl⟩

lemma initModel_inv (env : Env) (s : ModelAdapter)
    (h1 : s.torch_model = none) (_h2 : s.model_loaded = false) :
    (initModel env s).torch_model = none ∨ (initModel env s).model_loaded = true := by
  unfold initModel
  cases hme : env.modelExists with
  | false => simp [h1]
  | true =>
    simp only [if_true]
    cases hta : env.torchAvailable with
    | false => simp [h1]
    | true =>
      simp only [hta, Bool.not_true, Bool.false_eq_true, if_false]
      rcases env.jitLoad with e | tm
      · rcases env.rawLoad with e2 | r
        · left; exact h1
        · rcases r with tm2 | o
          · right; rfl
          · right; rfl
      · right; rfl

lemma initModel_no_torch (env : Env) (s : ModelAdapter)
    (h : env.torchAvailable = false) :
    (initModel env s).torch_model = s.torch_model ∧
    (initModel env s).model = s.model ∧
    (initModel env s).model_loaded = s.model_loaded := by
  unfold initModel
  cases hme : env.modelExists with
  | false => simp
  | true => simp [h]

lemma initAdapter_loaded_of_torch_model (env : Env) (fo : List String) :
    (initAdapter env fo).torch_model = none ∨ (initAdapter env fo).model_loaded = true := by
  unfold initAdapter
  obtain ⟨hg1, _, hg3⟩ := initGen_core_fields env (initModel env (initScaler env _))
  rw [hg1, hg3]
  obtain ⟨hs1, _, hs3⟩ := initScaler_core_fields env
    { feature_order := fo, model := none, torch_model := none,
      scaler := none, gen_model := none, model_loaded := false,
      message := "stub", torch := env.torchAvailable }
  exact initModel_inv env _ hs1 hs3

lemma initAdapter_no_torch (env : Env) (fo : List String)
    (h : env.torchAvailable = false) :
    (initAdapter env fo).torch_model = none ∧ (initAdapter env fo).model = none ∧
    (initAdapter env fo).model_loaded = false := by
  unfold initAdapter
  obtain ⟨hg1, hg2, hg3⟩ := initGen_core_fields env (initModel env (initScaler env _))
  obtain ⟨hm1, hm2, hm3⟩ := initModel_no_torch env (initScaler env
    { feature_order := fo, model := none, torch_model := none,
      scaler := none, gen_model := none, model_loaded := false,
      message := "stub", torch := env.torchAvailable }) h
  obtain ⟨hs1, hs2, hs3⟩ := initScaler_core_fields env
    { feature_order := fo, model := none, torch_model := none,
      scaler := none, gen_model := none, model_loaded := false,
      message := "stub", torch := env.torchAvailable }
  rw [hg1, hg2, hg3, hm1, hm2, hm3, hs1, hs2, hs3]
  exact ⟨rfl, rfl, rfl⟩

lemma predictFallback_contract (s : ModelAdapter) (array : RArray) :
    ((∃ e, ((predictFallback s array).1).message = "predict_failed:" ++ e) ∧
      ((predictFallback s array).1).risk = none ∧
      ((predictFallback s array).1).model_loaded = s.model_loaded) ∨
    ((predictFallback s array).1).message = s.message := by
  cases hm : s.model with
  | none => right; simp [predictFallback, hm]
  | some m =>
    cases hc : (s.model_loaded && m.hasPredict) with
    | false => right; simp [predictFallback, hm, hc]
    | true =>
      cases hcall : innerSkCall m array with
      | ok p => right; simp [predictFallback, hm, hc, hcall]
      | error e =>
        left
        have hand : s.model_loaded = true ∧ m.hasPredict = true := by
          constructor <;> [exact (Bool.and_elim_left hc); exact (Bool.and_elim_right hc)]
        refine ⟨⟨e, ?_⟩, ?_, ?_⟩ <;>
          simp [predictFallback, hm, hc, hcall, hand.1, hand.2]

/-- C2 corrected/amended: `predict` and `explain` are total functions of
state and input (no exception escapes).  First conjunct: when the torch
branch runs and the inference call raises, the failure is caught and
converted into a result with absent risk, message `predict_failed:<exc>`,
and a `model_loaded` flag equal to the adapter's load state before the
call.  Second conjunct: the same holds when the fallback predictor branch
runs and its call raises.  Third conjunct: every result is either such a
failure-shaped record or carries the unchanged status message — in
particular a failure during preparation is caught and silently ignored
rather than surfaced (see the counterexample).  The remaining conjuncts:
`predict` leaves the state unchanged, and `explain` always returns absent
risk with the state's own flags, also leaving the state unchanged. -/
theorem predict_explain_failure_contract (env : Env) (fo : List String)
    (x : Features) (y : String → Option RawVal) :
    (∀ tm e, (initAdapter env fo).torch_model = some tm →
       (initAdapter env fo).torch = true →
       innerTorchCall tm (prepare_input (initAdapter env fo) x) = .error e →
       ((predict (initAdapter env fo) x).1).risk = none ∧
       ((predict (initAdapter env fo) x).1).message = "predict_failed:" ++ e ∧
       ((predict (initAdapter env fo) x).1).model_loaded =
         (initAdapter env fo).model_loaded) ∧
    (∀ m e, ((initAdapter env fo).torch_model = none ∨
         (initAdapter env fo).torch = false) →
       (initAdapter env fo).model = some m →
       ((initAdapter env fo).model_loaded && m.hasPredict) = true →
       innerSkCall m (prepare_input (initAdapter env fo) x) = .error e →
       ((predict (initAdapter env fo) x).1).risk = none ∧
       ((predict (initAdapter env fo) x).1).message = "predict_failed:" ++ e ∧
       ((predict (initAdapter env fo) x).1).model_loaded =
         (initAdapter env fo).model_loaded) ∧
    (((∃ e, ((predict (initAdapter env fo) x).1).message = "predict_failed:" ++ e) ∧
        ((predict (initAdapter env fo) x).1).risk = none ∧
        ((predict (initAdapter env fo) x).1).model_loaded =
          (initAdapter env fo).model_loaded) ∨
      ((predict (initAdapter env fo) x).1).message = (initAdapter env fo).message) ∧
    (predict (initAdapter env fo) x).2 = initAdapter env fo ∧
    ((explain (initAdapter env fo) y).1).risk = none ∧
    ((explain (initAdapter env fo) y).1).model_loaded =
      (initAdapter env fo).model_loaded ∧
    (explain (initAdapter env fo) y).2 = initAdapter env fo := by
  refine ⟨?_, ?_, ?_, predict_state_eq _ x, rfl, rfl, rfl⟩
  · intro tm e htm hto hcall
    have hml : (initAdapter env fo).model_loaded = true := by
      rcases initAdapter_loaded_of_torch_model env fo with h | h
      · rw [htm] at h; cases h
      · exact h
    refine ⟨?_, ?_, ?_⟩ <;> simp [predict, htm, hto, hcall, hml]
  · intro m e hor hm hg hcall
    have hml : (initAdapter env fo).model_loaded = true := Bool.and_elim_left hg
    have hfb : (predict (initAdapter env fo) x).1 =
        (predictFallback (initAdapter env fo)
          (prepare_input (initAdapter env fo) x)).1 := by
      rcases hor with h | h
      · simp only [predict, h]
      · cases htm2 : (initAdapter env fo).torch_model with
        | none => simp only [predict, htm2]
        | some tm2 => simp only [predict, htm2, h, Bool.false_eq_true, if_false]
    rw [hfb]
    have hhp : m.hasPredict = true := Bool.and_elim_right hg
    refine ⟨?_, ?_, ?_⟩ <;> simp [predictFallback, hm, hg, hcall, hml, hhp]
  · cases htm : (initAdapter env fo).torch_model with
    | none =>
      simp only [predict, htm]
      exact predictFallback_contract _ _
    | some tm =>
      cases hto : (initAdapter env fo).torch with
      | false =>
        simp only [predict, htm, hto, Bool.false_eq_true, if_false]
        exact predictFallback_contract _ _
      | true =>
        cases hcall : innerTorchCall tm (prepare_input (initAdapter env fo) x) with
        | ok v => right; simp [predict, htm, hto, hcall]
        | error e =>
          left
          have hml : (initAdapter env fo).model_loaded = true := by
            rcases initAdapter_loaded_of_torch_model env fo with h | h
            · rw [htm] at h; cases h
            · exact h
          refine ⟨⟨e, ?_⟩, ?_, ?_⟩ <;> simp [predict, htm, hto, hcall, hml]

/-- C2 witness: on `envRaise` — whose loaded torch model raises on every
invocation — the inference failure is caught and `predict` returns the
absent-risk `predict_failed:` result with `model_loaded` equal to the
adapter's load state. -/
theorem predict_explain_failure_contract_witness :
    ((predict (initAdapter envRaise ["age", "hr"]) featNum).1).risk = none ∧
    ((predict (initAdapter envRaise ["age", "hr"]) featNum).1).message =
      "predict_failed:" ++ "RuntimeError: bad input" ∧
    ((predict (initAdapter envRaise ["age", "hr"]) featNum).1).model_loaded =
      (initAdapter envRaise ["age", "hr"]).model_loaded :=
  (predict_explain_failure_contract envRaise ["age", "hr"] featNum
      (fun _ => none)).1 raiseModel "RuntimeError: bad input" rfl rfl rfl

/-- C2 counterexample: on `adapterPrep` (built by `initAdapter`) the
generative imputation model raises during `_prepare_input` — an internal
failure during preparation — yet `predict` returns a present risk and the
unchanged status message, so the failure is not converted into an
absent-risk result whose message encodes it. -/
theorem predict_prep_failure_ignored_cex :
    adapterPrep.gen_model = some boomGen ∧
    boomGen (nanToNum (rawCells adapterPrep.feature_order featHalfMissing)) =
      .error "gen_boom" ∧
    hasNaN (rawCells adapterPrep.feature_order featHalfMissing) = true ∧
    ((predict adapterPrep featHalfMissing).1).risk.isSome = true ∧
    ((predict adapterPrep featHalfMissing).1).message = adapterPrep.message := by
  exact ⟨rfl, rfl, by decide, rfl, rfl⟩

/-- C7: if the optional torch runtime is absent at construction, `predict`
returns an absent risk and `model_loaded = false` for every input. -/
theorem predict_torch_missing_spec (env : Env) (fo : List String) (x : Features)
    (h : env.torchAvailable = false) :
    ((predict (initAdapter env fo) x).1).risk = none ∧
    ((predict (initAdapter env fo) x).1).model_loaded = false := by
  obtain ⟨h1, h2, h3⟩ := initAdapter_no_torch env fo h
  simp only [predict, h1]
  simp [predictFallback, h2]

/-- C7 witness: the concrete torch-less environment `envNoTorch`. -/
theorem predict_torch_missing_witness :
    ((predict (initAdapter envNoTorch ["age", "hr"]) featNum).1).risk = none ∧
    ((predict (initAdapter envNoTorch ["age", "hr"]) featNum).1).model_loaded = false :=
  predict_torch_missing_spec envNoTorch ["age", "hr"] featNum rfl

/-- C8: repeated calls to the `status` accessor with no intervening state
change return the identical message string (and the accessor leaves the
state unchanged). -/
theorem status_idempotent (s : ModelAdapter) :
    (status ((status s).2)).1 = (status s).1 ∧ (status ((status s).2)).2 = (status s).2 :=
  ⟨rfl, rfl⟩

/-- C9: `predict` and `explain` mutate no adapter field — the state
returned alongside the `ModelOutput` equals the input state, so all failure
information lives only in the returned record. -/
theorem predict_explain_frame (s : ModelAdapter) (x : Features)
    (y : String → Option RawVal) :
    (predict s x).2 = s ∧ (explain s y).2 = s :=
  ⟨predict_state_eq s x, rfl⟩

lemma genResult_shape (gen : Option GenModel) (torchAvail : Bool) (a : CArray)
    (gnp : RArray) (h : genResult gen torchAvail a = some gnp) :
    shape2 gnp = shape2 a := by
  cases gen with
  | none => exact absurd h (by simp [genResult])
  | some g =>
    cases hcnd : (torchAvail && hasNaN a) with
    | false => exact absurd h (by simp [genResult, hcnd])
    | true =>
      cases hcall : g (nanToNum a) with
      | error e => exact absurd h (by simp [genResult, hcnd, hcall])
      | ok gnp' =>
        by_cases hs : shape2 gnp' = shape2 a
        · have heq : gnp' = gnp := by
            have hh := h
            simp [genResult, hcnd, hcall, hs] at hh
            exact hh
          rw [← heq]
          exact hs
        · exact absurd h (by simp [genResult, hcnd, hcall, hs])

lemma npWhere_cell (a : CArray) (g : RArray) (hsh : shape2 g = shape2 a)
    (i j : ℕ) (c : Cell) (hc : cellAt a i j = some c) :
    ∃ w, cellAt (npWhere a g) i j = some (some (c.getD w)) := by
  unfold cellAt at hc
  obtain ⟨row, hrow, hcj⟩ : ∃ row, a[i]? = some row ∧ row[j]? = some c := by
    cases hai : a[i]? with
    | none => rw [hai] at hc; cases hc
    | some row => rw [hai] at hc; exact ⟨row, rfl, hc⟩
  have hlen : g.length = a.length := congrArg Prod.fst hsh
  have hmaps : g.map List.length = a.map List.length := congrArg Prod.snd hsh
  have hia : i < a.length := by
    rcases List.getElem?_eq_some.1 hrow with ⟨hlt, -⟩
    exact hlt
  have hig : i < g.length := by omega
  obtain ⟨grow, hgrow⟩ : ∃ grow, g[i]? = some grow :=
    ⟨g[i], List.getElem?_eq_getElem hig⟩
  have hrl : grow.length = row.length := by
    have h1 : (g.map List.length)[i]? = some grow.length := by
      rw [List.getElem?_map, hgrow]
      rfl
    have h2 : (a.map List.length)[i]? = some row.length := by
      rw [List.getElem?_map, hrow]
      rfl
    rw [hmaps, h2] at h1
    exact (Option.some.inj h1).symm
  have hjr : j < row.length := by
    rcases List.getElem?_eq_some.1 hcj with ⟨hlt, -⟩
    exact hlt
  have hjg : j < grow.length := by omega
  obtain ⟨w, hw⟩ : ∃ w, grow[j]? = some w := ⟨grow[j], List.getElem?_eq_getElem hjg⟩
  refine ⟨w, ?_⟩
  unfold cellAt npWhere
  have hz : (a.zip g)[i]? = some (row, grow) :=
    List.getElem?_zip_eq_some.2 ⟨hrow, hgrow⟩
  rw [List.getElem?_map, hz]
  have hz2 : (row.zip grow)[j]? = some (c, w) :=
    List.getElem?_zip_eq_some.2 ⟨hcj, hw⟩
  simp only [Option.map_some', Option.some_bind]
  rw [List.getElem?_map, hz2]
  rfl

lemma nanToNum_cell (a : CArray) (i j : ℕ) (c : Cell) (hc : cellAt a i j = some c) :
    rAt (nanToNum a) i j = some (c.getD 0) := by
  unfold cellAt at hc
  obtain ⟨row, hrow, hcj⟩ : ∃ row, a[i]? = some row ∧ row[j]? = some c := by
    cases hai : a[i]? with
    | none => rw [hai] at hc; cases hc
    | some row => rw [hai] at hc; exact ⟨row, rfl, hc⟩
  unfold rAt nanToNum
  rw [List.getElem?_map, hrow]
  simp only [Option.map_some', Option.some_bind]
  rw [List.getElem?_map, hcj]
  rfl

lemma genStage_preserves (gen : Option GenModel) (torchAvail : Bool) (a : CArray) :
    ∀ i j v, cellAt a i j = some (some v) →
      cellAt (genStage gen torchAvail a) i j = some (some v) := by
  intro i j v hc
  unfold genStage
  cases hg : genResult gen torchAvail a with
  | none => exact hc
  | some gnp =>
    have hsh := genResult_shape gen torchAvail a gnp hg
    obtain ⟨w, hw⟩ := npWhere_cell a gnp hsh i j (some v) hc
    simpa using hw

/-- C10: in `ModelAdapter._prepare_input` the generative model fills only
originally-NaN cells — a cell holding a genuine numeric value is never
overwritten; whenever the generative branch does not complete (model
absent, torch absent, a raising call, or an output of a different shape —
exactly the cases in which `genResult` is `none`), every originally-missing
cell is silently filled with `0.0` by `nan_to_num`; and a raising scaler
`transform` is silently swallowed, leaving the array unscaled. -/
theorem prepare_input_imputation_spec (s : ModelAdapter) (x : Features) :
    (∀ i j v, cellAt (rawCells s.feature_order x) i j = some (some v) →
       cellAt (genStage s.gen_model s.torch (rawCells s.feature_order x)) i j =
         some (some v)) ∧
    (genResult s.gen_model s.torch (rawCells s.feature_order x) = none →
       ∀ i j, cellAt (rawCells s.feature_order x) i j = some none →
         rAt (nanToNum (genStage s.gen_model s.torch (rawCells s.feature_order x))) i j =
           some 0) ∧
    (∀ sc e, s.scaler = some sc →
       sc.transform
         (nanToNum (genStage s.gen_model s.torch (rawCells s.feature_order x))) =
         .error e →
       prepare_input s x =
         nanToNum (genStage s.gen_model s.torch (rawCells s.feature_order x))) := by
  refine ⟨genStage_preserves _ _ _, ?_, ?_⟩
  · intro hnone i j hc
    have hgs : genStage s.gen_model s.torch (rawCells s.feature_order x) =
        rawCells s.feature_order x := by
      unfold genStage
      rw [hnone]
    rw [hgs]
    have := nanToNum_cell (rawCells s.feature_order x) i j none hc
    simpa using this
  · intro sc e hsc htr
    unfold prepare_input scaleStage
    rw [hsc]
    cases hh : sc.hasTransform with
    | false => simp [hh]
    | true =>
      simp only [hh, if_true]
      rw [htr]

/-- C10 witness: on an adapter whose generative model and scaler both
raise, and an input whose `age` is numeric and `hr` is missing, the numeric
cell survives the generative stage, the missing cell is silently zeroed,
and the failing scaler leaves the array unscaled. -/
theorem prepare_input_imputation_witness :
    cellAt (genStage adapterPrep2.gen_model adapterPrep2.torch
      (rawCells adapterPrep2.feature_order featHalfMissing)) 0 0 = some (some 5) ∧
    rAt (nanToNum (genStage adapterPrep2.gen_model adapterPrep2.torch
      (rawCells adapterPrep2.feature_order featHalfMissing))) 0 1 = some 0 ∧
    prepare_input adapterPrep2 featHalfMissing =
      nanToNum (genStage adapterPrep2.gen_model adapterPrep2.torch
        (rawCells adapterPrep2.feature_order featHalfMissing)) := by
  have h := prepare_input_imputation_spec adapterPrep2 featHalfMissing
  exact ⟨h.1 0 0 5 rfl, h.2.1 rfl 0 1 rfl, h.2.2 boomScaler "scale_boom" rfl rfl⟩

end ICURisk
